import Mathlib

/-!
Verification development for the Diario entry storage engine
(`src/models/diary_entry.py`).

The embedding is shallow and value-level:

* timestamps (`datetime`) are logical clock values `Nat`; `isoformat` /
  `fromisoformat` round-trip on well-formed timestamp strings and
  `fromisoformat` fails (raises) on malformed ones, which we model with
  an inductive `TimeStr`;
* Python dictionaries holding an entry are `EntryDict`, with `Option`
  fields for presence/absence of a key;
* the AES-CBC cipher of pycryptodome is modelled symbolically (an ideal
  cipher): a ciphertext remembers the key and IV it was produced with,
  decryption with the same key recovers the plaintext, and decryption
  with any other key yields bytes on which `unpad`/`json.loads` fail,
  which the source catches and turns into the empty dict `{}`;
* `SqliteDict` is an association list `id -> stored string` with
  upsert/erase; the stored strings are `StoredVal` (plain JSON text,
  base64 of IV||ciphertext, or junk);
* I/O failures of the sqlite file are injected through explicit `Bool`
  flags on the operations, standing for the exceptions the source
  catches;
* fresh `uuid4` identifiers and `datetime.now()` readings are passed in
  as explicit parameters.
-/

namespace Diario

/-- Timestamp strings: either the `isoformat` of a timestamp, or a
malformed string on which `datetime.fromisoformat` raises. -/
inductive TimeStr where
  | iso (t : Nat)
  | malformed (s : String)
deriving DecidableEq, Repr

/-- Models `datetime.datetime.fromisoformat`: recovers the timestamp from
its `isoformat`, fails (raises `ValueError`) on a malformed string. -/
def fromisoformat : TimeStr → Option Nat
  | .iso t => some t
  | .malformed _ => none

/-- One media attachment record, as stored in `DiaryEntry.media`
(a Python dict with string fields; its `created_at` is already an
isoformat string when present in the list). -/
structure MediaItem where
  mid : String
  mtype : String
  mdata : String
  mdescription : String
  mcreated_at : TimeStr
deriving DecidableEq, Repr

/-- The in-memory entry object (`class DiaryEntry`). -/
structure DiaryEntry where
  id : String
  title : String
  content : String
  mood : Int
  tags : List String
  location : List (String × String)
  media : List MediaItem
  created_at : Nat
  updated_at : Nat
deriving DecidableEq, Repr

/-- A Python dict holding entry fields; `none` means the key is absent
(`data.get(k, default)` then returns the default). -/
structure EntryDict where
  id : Option String
  title : Option String
  content : Option String
  mood : Option Int
  tags : Option (List String)
  location : Option (List (String × String))
  media : Option (List MediaItem)
  created_at : Option TimeStr
  updated_at : Option TimeStr
deriving DecidableEq, Repr

/-- The empty dict `{}`, returned by `_decrypt_data` on any failure. -/
def emptyDict : EntryDict :=
  ⟨none, none, none, none, none, none, none, none, none⟩

/-- Models `DiaryEntry.__init__`.  The optional parameters mirror the
Python defaults (`tags=None` etc.); `x or default` on a list/dict equals
`Option.getD` value-wise, and a `datetime` is always truthy so
`created_at or now` is also `Option.getD`.  `fresh_id` is the
`uuid.uuid4()` result and `now` the `datetime.now()` reading. -/
def DiaryEntry.init (title content : String) (mood : Int)
    (tags : Option (List String)) (location : Option (List (String × String)))
    (media : Option (List MediaItem)) (created_at updated_at : Option Nat)
    (fresh_id : String) (now : Nat) : DiaryEntry :=
  { id := fresh_id
    title := title
    content := content
    mood := mood
    tags := tags.getD []
    location := location.getD []
    media := media.getD []
    created_at := created_at.getD now
    updated_at := updated_at.getD now }

/-- Models `DiaryEntry.to_dict`: every key present, timestamps in
isoformat. -/
def DiaryEntry.to_dict (e : DiaryEntry) : EntryDict :=
  { id := some e.id
    title := some e.title
    content := some e.content
    mood := some e.mood
    tags := some e.tags
    location := some e.location
    media := some e.media
    created_at := some (TimeStr.iso e.created_at)
    updated_at := some (TimeStr.iso e.updated_at) }

/-- Models `DiaryEntry.from_dict`: defaults for missing keys, the fresh
constructor id kept when `"id"` is absent, and the timestamp fields
converted with `fromisoformat` only when present — a malformed timestamp
string makes the classmethod raise, modelled by `none`. -/
def DiaryEntry.from_dict (data : EntryDict) (fresh_id : String) (now : Nat) :
    Option DiaryEntry :=
  let e0 := DiaryEntry.init (data.title.getD "") (data.content.getD "")
      (data.mood.getD 3) (some (data.tags.getD [])) (some (data.location.getD []))
      (some (data.media.getD [])) none none fresh_id now
  let e1 := { e0 with id := data.id.getD e0.id }
  let step2 : Option DiaryEntry :=
    match data.created_at with
    | none => some e1
    | some ts =>
      match fromisoformat ts with
      | none => none
      | some t => some { e1 with created_at := t }
  match step2 with
  | none => none
  | some e2 =>
    match data.updated_at with
    | none => some e2
    | some ts =>
      match fromisoformat ts with
      | none => none
      | some t => some { e2 with updated_at := t }

/-- Models `DiaryEntry.update`: only the supplied (non-`None`) fields are
replaced, and `updated_at` is refreshed. -/
def DiaryEntry.update (e : DiaryEntry) (title content : Option String)
    (mood : Option Int) (tags : Option (List String))
    (location : Option (List (String × String)))
    (media : Option (List MediaItem)) (now : Nat) : DiaryEntry :=
  { e with
    title := title.getD e.title
    content := content.getD e.content
    mood := mood.getD e.mood
    tags := tags.getD e.tags
    location := location.getD e.location
    media := media.getD e.media
    updated_at := now }

/-- Models `DiaryEntry.add_tag`: appends the tag and refreshes
`updated_at` when it is not yet present, otherwise returns `False` and
changes nothing. -/
def DiaryEntry.add_tag (e : DiaryEntry) (tag : String) (now : Nat) :
    Bool × DiaryEntry :=
  if tag ∈ e.tags then (false, e)
  else (true, { e with tags := e.tags ++ [tag], updated_at := now })

/-! ### The persistent store and the cipher -/

/-- Byte payloads handled by `_encrypt_data` / `_decrypt_data`, modelled
symbolically.  `jsonBytes d` is the UTF-8 JSON text of dict `d`;
`ivCt k iv d` is the IV-prefixed AES-CBC encryption, under key `k` and
initialization vector `iv`, of the padded JSON of `d` (the ideal-cipher
view: the ciphertext determines key, IV and plaintext, and bytes produced
with a different key or corrupted never unpad/parse back to valid JSON);
`junk` is any other byte string, on which both `json.loads` and
unpad-after-decrypt fail. -/
inductive Bytes where
  | jsonBytes (d : EntryDict)
  | ivCt (key : String) (iv : Nat) (d : EntryDict)
  | junk
deriving DecidableEq, Repr

/-- Strings stored as values in the sqlite table by `save_entry`. -/
inductive StoredVal where
  /-- `json.dumps(entry_dict)` — the plaintext path. -/
  | plain (d : EntryDict)
  /-- corrupt text that is not JSON; `b64ok` records whether
  `base64.b64decode` happens to succeed on it. -/
  | plainJunk (b64ok : Bool)
  /-- base64 of plain JSON bytes (written when the password is truthy but
  no key was derived, an unreachable state in normal runs). -/
  | b64plain (d : EntryDict)
  /-- base64 of `IV || AES-CBC(key, pad(json(d)))`. -/
  | enc (key : String) (iv : Nat) (d : EntryDict)
  /-- base64 text whose decoded bytes decrypt to junk under every key. -/
  | encJunk
deriving DecidableEq, Repr

/-- Models `base64.b64decode` on a stored string.  JSON text (`plain`)
contains characters outside the base64 alphabet and fails; the base64
forms decode to the bytes they encode. -/
def b64decode : StoredVal → Option Bytes
  | .plain _ => none
  | .plainJunk ok => if ok then some .junk else none
  | .b64plain d => some (.jsonBytes d)
  | .enc k iv d => some (.ivCt k iv d)
  | .encJunk => some .junk

/-- Models `base64.b64encode` of an `_encrypt_data` result. -/
def b64encode : Bytes → StoredVal
  | .jsonBytes d => .b64plain d
  | .ivCt k iv d => .enc k iv d
  | .junk => .encJunk

/-- Models `DiaryEntryManager._encrypt_data`: without a key the JSON
bytes are returned as-is; with a key the padded JSON is encrypted under a
fresh IV and the IV is prefixed. -/
def encrypt_data (key : Option String) (iv : Nat) (d : EntryDict) : Bytes :=
  match key with
  | none => .jsonBytes d
  | some k => .ivCt k iv d

/-- Models `DiaryEntryManager._decrypt_data`: without a key,
`json.loads` with `{}` on failure; with a key, split IV/ciphertext,
decrypt and unpad — any failure (wrong key, junk bytes, bad padding,
non-JSON plaintext) is caught and `{}` is returned. -/
def decrypt_data (key : Option String) (b : Bytes) : EntryDict :=
  match key with
  | none =>
    match b with
    | .jsonBytes d => d
    | _ => emptyDict
  | some k =>
    match b with
    | .ivCt kc _ d => if kc = k then d else emptyDict
    | _ => emptyDict

/-- Association-list lookup on the store / cache (first binding wins,
as in a Python dict). -/
def lookupKey (k : String) : List (String × α) → Option α
  | [] => none
  | (k1, v) :: rest => if k1 = k then some v else lookupKey k rest

/-- Association-list upsert: `d[k] = v` replaces an existing binding in
place or appends a new one, as in a Python dict / `SqliteDict`. -/
def upsertKey (k : String) (v : α) : List (String × α) → List (String × α)
  | [] => [(k, v)]
  | (k1, v1) :: rest =>
    if k1 = k then (k, v) :: rest else (k1, v1) :: upsertKey k v rest

/-- Association-list deletion: `del d[k]`. -/
def dropKey (k : String) : List (String × α) → List (String × α)
  | [] => []
  | (k1, v1) :: rest =>
    if k1 = k then rest else (k1, v1) :: dropKey k rest

/-- Python truthiness of the `password` attribute (`None` and the empty
string are falsy). -/
def pwTruthy : Option String → Bool
  | none => false
  | some s => !(s == "")

/-- Models `hashlib.pbkdf2_hmac` over the fixed per-installation salt:
deterministic in the password and, idealizing collision-freeness,
injective. -/
def derive_key (password : String) : String :=
  "pbkdf2-sha256-salt:" ++ password

/-- The manager state (`class DiaryEntryManager`): the current password,
the derived key held in memory, the in-memory entry cache and the
on-disk sqlite table. -/
structure Manager where
  password : Option String
  key : Option String
  entries_cache : List (String × DiaryEntry)
  db : List (String × StoredVal)
deriving DecidableEq, Repr

/-- Models `_init_encryption`: derives the key from the current password
and the persisted salt; fails (raises `AttributeError` before touching
`self.key`) when the password is `None`. -/
def init_encryption (m : Manager) : Option Manager :=
  match m.password with
  | none => none
  | some p => some { m with key := some (derive_key p) }

/-- Models `DiaryEntryManager.save_entry`.  `now` is the `datetime.now()`
reading, `iv` the random IV drawn for this encryption, and `io_fail`
injects an I/O exception of the sqlite write, which the source catches
(logging it) and turns into a `None` return.  The middle component is
the entry object after the in-place `updated_at` refresh. -/
def save_entry (m : Manager) (e0 : DiaryEntry) (now iv : Nat)
    (io_fail : Bool) : Option String × DiaryEntry × Manager :=
  let e := { e0 with updated_at := now }
  if io_fail then (none, e, m)
  else
    let d := e.to_dict
    let stored : StoredVal :=
      if pwTruthy m.password then b64encode (encrypt_data m.key iv d)
      else .plain d
    (some e.id, e,
      { m with
        db := upsertKey e.id stored m.db
        entries_cache := upsertKey e.id e m.entries_cache })

/-- Models `DiaryEntryManager.get_entry`: cache first; on a miss, read
the stored string, base64-decode and decrypt when the password is
truthy or `json.loads` it otherwise, rebuild the entry with `from_dict`
and cache it.  Any exception (I/O, base64, JSON, `from_dict`) is caught
and `None` is returned. -/
def get_entry (m : Manager) (entry_id : String) (fresh_id : String)
    (now : Nat) (io_fail : Bool) : Option DiaryEntry × Manager :=
  match lookupKey entry_id m.entries_cache with
  | some e => (some e, m)
  | none =>
    if io_fail then (none, m)
    else
      match lookupKey entry_id m.db with
      | none => (none, m)
      | some stored =>
        let dict? : Option EntryDict :=
          if pwTruthy m.password then
            match b64decode stored with
            | none => none
            | some b => some (decrypt_data m.key b)
          else
            match stored with
            | .plain d => some d
            | _ => none
        match dict? with
        | none => (none, m)
        | some d =>
          match DiaryEntry.from_dict d fresh_id now with
          | none => (none, m)
          | some e =>
            (some e, { m with entries_cache := upsertKey entry_id e m.entries_cache })

/-- Models `DiaryEntryManager.delete_entry`: removes the record and the
cache line when present; an injected I/O exception is caught and `False`
is returned. -/
def delete_entry (m : Manager) (entry_id : String) (io_fail : Bool) :
    Bool × Manager :=
  if io_fail then (false, m)
  else
    match lookupKey entry_id m.db with
    | some _ =>
      (true,
        { m with
          db := dropKey entry_id m.db
          entries_cache := dropKey entry_id m.entries_cache })
    | none => (false, m)

/-- Fresh uuid strings handed to the successive `get_entry` calls of a
bulk read: the `i`-th fresh id of a batch started at counter `base`. -/
def freshName (base i : Nat) : String :=
  "uuid-" ++ toString base ++ "-" ++ toString i

/-- Stable insertion preserving descending `created_at` order: the new
element goes before the first element it is not strictly older than, so
that equal keys keep their original relative order. -/
def insertByCreatedDesc (e : DiaryEntry) :
    List DiaryEntry → List DiaryEntry
  | [] => [e]
  | x :: xs =>
    if e.created_at < x.created_at then x :: insertByCreatedDesc e xs
    else e :: x :: xs

/-- Stable sort by `created_at` descending, modelling
`entries.sort(key=lambda x: x.created_at, reverse=True)`. -/
def sortByCreatedDesc (l : List DiaryEntry) : List DiaryEntry :=
  l.foldr insertByCreatedDesc []

/-- The iteration of `get_all_entries` over the table's keys: each key
goes through the cache-first `get_entry`, truthy results are collected
in iteration order and the threaded manager accumulates cache lines. -/
def gather (m : Manager) (ks : List (String × StoredVal)) (base i : Nat)
    (now : Nat) : List DiaryEntry × Manager :=
  match ks with
  | [] => ([], m)
  | (k, _) :: rest =>
    let r1 := get_entry m k (freshName base (i + 1)) now false
    let r2 := gather r1.2 rest base (i + 1) now
    match r1.1 with
    | some e => (e :: r2.1, r2.2)
    | none => r2

/-- Models `DiaryEntryManager.get_all_entries`: read every key of the
table through `get_entry`, keep the truthy results, sort by `created_at`
descending. -/
def get_all_entries (m : Manager) (base now : Nat) :
    List DiaryEntry × Manager :=
  let r := gather m m.db base 0 now
  (sortByCreatedDesc r.1, r.2)

/-! ### Search, statistics and password rotation -/

/-- Python truthiness of an optional string argument. -/
def optStrTruthy : Option String → Bool
  | none => false
  | some s => !(s == "")

/-- Python truthiness of an optional list argument. -/
def optListTruthy : Option (List α) → Bool
  | none => false
  | some l => !l.isEmpty

/-- Whether the first character list leads the second one. -/
def charsLead : List Char → List Char → Bool
  | [], _ => true
  | _ :: _, [] => false
  | a :: as, b :: bs => a == b && charsLead as bs

/-- Whether the first character list occurs contiguously inside the
second one. -/
def charsWithin (needle : List Char) : List Char → Bool
  | [] => needle.isEmpty
  | c :: rest => charsLead needle (c :: rest) || charsWithin needle rest

/-- `needle in haystack` on Python strings: substring containment. -/
def strContains (haystack needle : String) : Bool :=
  charsWithin needle.toList haystack.toList

/-- The text filter of `search_entries`:
`query.lower() in entry.title.lower() or query.lower() in entry.content.lower()`. -/
def matchesQuery (q : String) (e : DiaryEntry) : Bool :=
  strContains e.title.toLower q.toLower ||
    strContains e.content.toLower q.toLower

/-- The disjunction of the `continue` conditions of `search_entries`:
an entry is dropped when a truthy query does not match, none of the
requested tags is present, the creation date falls outside the supplied
bounds, or the mood differs from the requested one. -/
def searchSkip (query : Option String) (tags : Option (List String))
    (date_from date_to : Option Nat) (mood : Option Int)
    (e : DiaryEntry) : Bool :=
  (optStrTruthy query && !matchesQuery (query.getD "") e) ||
  (optListTruthy tags && !((tags.getD []).any (fun t => e.tags.contains t))) ||
  (match date_from with
   | some a => decide (e.created_at < a)
   | none => false) ||
  (match date_to with
   | some b => decide (b < e.created_at)
   | none => false) ||
  (match mood with
   | some v => !(e.mood == v)
   | none => false)

/-- The filtering loop of `search_entries` over the already-sorted entry
list: each `continue` branch of the source is one skip condition. -/
def searchLoop (query : Option String) (tags : Option (List String))
    (date_from date_to : Option Nat) (mood : Option Int) :
    List DiaryEntry → List DiaryEntry
  | [] => []
  | e :: rest =>
    if searchSkip query tags date_from date_to mood e then
      searchLoop query tags date_from date_to mood rest
    else e :: searchLoop query tags date_from date_to mood rest

/-- Models `DiaryEntryManager.search_entries`: fetch all entries (newest
first) and keep those passing every supplied filter. -/
def search_entries (m : Manager) (base now : Nat) (query : Option String)
    (tags : Option (List String)) (date_from date_to : Option Nat)
    (mood : Option Int) : List DiaryEntry × Manager :=
  let r := get_all_entries m base now
  (searchLoop query tags date_from date_to mood r.1, r.2)

/-- The date filter shared by `get_mood_stats` (and mirroring the
range conditions of `search_entries`): drop entries created strictly
before `date_from` or strictly after `date_to`. -/
def dateFilterLoop (date_from date_to : Option Nat) :
    List DiaryEntry → List DiaryEntry
  | [] => []
  | e :: rest =>
    let skip : Bool :=
      (match date_from with
       | some a => decide (e.created_at < a)
       | none => false) ||
      (match date_to with
       | some b => decide (b < e.created_at)
       | none => false)
    if skip then dateFilterLoop date_from date_to rest
    else e :: dateFilterLoop date_from date_to rest

/-- `mood_stats[v] += 1` on the association list of counters. -/
def bumpCount (v : Int) : List (Int × Nat) → List (Int × Nat)
  | [] => []
  | (k, c) :: rest =>
    if k = v then (k, c + 1) :: rest else (k, c) :: bumpCount v rest

/-- Membership test `entry.mood in mood_stats` on the counter keys. -/
def hasCountKey (v : Int) : List (Int × Nat) → Bool
  | [] => false
  | (k, _) :: rest => decide (k = v) || hasCountKey v rest

/-- The counting loop of `get_mood_stats`: an entry bumps its mood's
counter only when that mood is one of the dict's keys. -/
def countMoods (entries : List DiaryEntry) (stats : List (Int × Nat)) :
    List (Int × Nat) :=
  match entries with
  | [] => stats
  | e :: rest =>
    countMoods rest (if hasCountKey e.mood stats then bumpCount e.mood stats else stats)

/-- Models `DiaryEntryManager.get_mood_stats`: date-filter the full
entry list when a bound is supplied, then count per mood level starting
from the zero-filled dict `{1:0, 2:0, 3:0, 4:0, 5:0}`. -/
def get_mood_stats (m : Manager) (base now : Nat)
    (date_from date_to : Option Nat) : List (Int × Nat) × Manager :=
  let r := get_all_entries m base now
  let entries :=
    if date_from.isSome || date_to.isSome then
      dateFilterLoop date_from date_to r.1
    else r.1
  (countMoods entries [(1, 0), (2, 0), (3, 0), (4, 0), (5, 0)], r.2)

/-- The re-encryption loop of `change_password`: each entry is passed to
`save_entry`, whose `None`-on-failure return value is ignored; `ivs i`
is the IV drawn for the `i`-th save and `save_fail i` injects an I/O
failure into it. -/
def resaveAll (m : Manager) (entries : List DiaryEntry) (now : Nat)
    (ivs : Nat → Nat) (save_fail : Nat → Bool) (i : Nat) : Manager :=
  match entries with
  | [] => m
  | e :: rest =>
    let r := save_entry m e now (ivs i) (save_fail i)
    resaveAll r.2.2 rest now ivs save_fail (i + 1)

/-- Models `DiaryEntryManager.change_password`: decode every entry under
the current password, switch the password, re-derive the key and re-save
each entry.  `_init_encryption` raises only when the new password is
`None`; in that case the handler restores the old password and, when it
is truthy, re-derives its key.  `save_entry` catches its own exceptions,
so the loop itself never raises. -/
def change_password (m : Manager) (new_password : Option String)
    (base now : Nat) (ivs : Nat → Nat) (save_fail : Nat → Bool) :
    Bool × Manager :=
  let r := get_all_entries m base now
  let old_password := r.2.password
  let m2 := { r.2 with password := new_password }
  match init_encryption m2 with
  | none =>
    let m3 := { m2 with password := old_password }
    let m4 :=
      if pwTruthy old_password then
        { m3 with key := some (derive_key (old_password.getD "")) }
      else m3
    (false, m4)
  | some m3 => (true, resaveAll m3 r.1 now ivs save_fail 0)

/-! ### Specification-side reference definitions

These follow the spec's words and are compared with the source-derived
operations above in the refinement theorems. -/

/-- Structural decode of a stored string in plaintext mode, per the
spec's codec contract: only a plain JSON record decodes, through
`from_dict`. -/
def plainDecode (v : StoredVal) (fid : String) (now : Nat) :
    Option DiaryEntry :=
  match v with
  | .plain d => DiaryEntry.from_dict d fid now
  | _ => none

/-- The decodable entries of a plaintext store, in table order, fed the
same fresh-id supply as the bulk read. -/
def decodableList (ks : List (String × StoredVal)) (base i now : Nat) :
    List DiaryEntry :=
  match ks with
  | [] => []
  | (_, v) :: rest =>
    match plainDecode v (freshName base (i + 1)) now with
    | some e => e :: decodableList rest base (i + 1) now
    | none => decodableList rest base (i + 1) now

/-- The spec's search contract, written from its words: conjunction of a
case-insensitive substring filter on title-or-content, an
any-requested-tag filter, an inclusive `created_at` range and an exact
mood match, with an absent (or empty, hence falsy) parameter imposing no
constraint. -/
def claimMatches (query : Option String) (tags : Option (List String))
    (date_from date_to : Option Nat) (mood : Option Int)
    (e : DiaryEntry) : Bool :=
  (match query with
   | none => true
   | some q => (q == "") || matchesQuery q e) &&
  (match tags with
   | none => true
   | some ts => ts.isEmpty || ts.any (fun t => e.tags.contains t)) &&
  (match date_from with
   | none => true
   | some a => decide (a ≤ e.created_at)) &&
  (match date_to with
   | none => true
   | some b => decide (e.created_at ≤ b)) &&
  (match mood with
   | none => true
   | some v => e.mood == v)

/-- Descending `created_at` order between two entries. -/
def byCreatedDesc (a b : DiaryEntry) : Prop :=
  b.created_at ≤ a.created_at

instance : DecidableRel byCreatedDesc := fun a b =>
  inferInstanceAs (Decidable (b.created_at ≤ a.created_at))

instance : IsTotal DiaryEntry byCreatedDesc :=
  ⟨fun a b => Nat.le_total b.created_at a.created_at⟩

instance : IsTrans DiaryEntry byCreatedDesc :=
  ⟨fun _ _ _ h1 h2 => Nat.le_trans h2 h1⟩

/-- The entry set `get_mood_stats` tallies: the full listing, date
filtered when a bound is supplied. -/
def consideredEntries (m : Manager) (base now : Nat)
    (date_from date_to : Option Nat) : List DiaryEntry :=
  let r := get_all_entries m base now
  if date_from.isSome || date_to.isSome then
    dateFilterLoop date_from date_to r.1
  else r.1

/-! ### Concrete sample data for the closed theorems -/

/-- Two sample entries forming the rotation scenario's store. -/
def rotEntryA : DiaryEntry := ⟨"e1", "A", "ca", 3, ["t"], [], [], 10, 10⟩

def rotEntryB : DiaryEntry := ⟨"e2", "B", "cb", 4, [], [], [], 20, 20⟩

def rotKeyOld : String := derive_key "old"

/-- A two-entry store fully encrypted under the password `"old"`. -/
def rotMgr : Manager :=
  ⟨some "old", some rotKeyOld, [],
    [("e1", .enc rotKeyOld 0 rotEntryA.to_dict),
     ("e2", .enc rotKeyOld 1 rotEntryB.to_dict)]⟩

/-- The rotation run in which the second re-save suffers an I/O
failure. -/
def rotResult : Bool × Manager :=
  change_password rotMgr (some "new") 0 30 (fun i => 100 + i)
    (fun i => i == 1)

/-- A fresh manager holding the post-rotation table, reopened under the
original password. -/
def rotReopenedOld : Manager :=
  ⟨some "old", some rotKeyOld, [], rotResult.2.db⟩

/-- A record encrypted under the key derived from `"a"`. -/
def c2dict : EntryDict := rotEntryA.to_dict

/-- A manager whose password `"b"` derives a key different from the one
the sole record was encrypted under. -/
def c2mgr : Manager :=
  ⟨some "b", some (derive_key "b"), [],
    [("x", .enc (derive_key "a") 5 c2dict)]⟩

/-- An entry persisted with the out-of-range mood 7. -/
def moodSevenEntry : DiaryEntry := ⟨"m7", "", "", 7, [], [], [], 1, 1⟩

def moodSevenMgr : Manager :=
  ⟨none, none, [], [("m7", .plain moodSevenEntry.to_dict)]⟩

/-- Sample store and entry for the I/O-failure theorems. -/
def c5mgr : Manager :=
  ⟨none, none, [],
    [("e1", .plain (⟨some "e1", some "T", some "C", some 3, some [],
        some [], some [], some (.iso 1), some (.iso 1)⟩ : EntryDict))]⟩

def c5entry : DiaryEntry := ⟨"e9", "t", "c", 3, [], [], [], 2, 2⟩

/-- An encrypted store holding one undecryptable record. -/
def junkMgr : Manager :=
  ⟨some "p", some (derive_key "p"), [], [("x", .encJunk)]⟩

/-- A plaintext store with one decodable and one corrupt record. -/
def plainMgr : Manager :=
  ⟨none, none, [],
    [("a", .plain rotEntryB.to_dict), ("z", .plainJunk false)]⟩

/-- Sample entries for the tag theorems. -/
def tagEntry : DiaryEntry := ⟨"e1", "A", "ca", 3, ["t"], [], [], 10, 10⟩

def tagEntryNoTags : DiaryEntry := ⟨"e2", "B", "cb", 4, [], [], [], 20, 20⟩

/-- A dict whose `created_at` is a malformed timestamp string. -/
def badTsDict : EntryDict :=
  ⟨none, none, none, none, none, none, none,
    some (.malformed "not-a-date"), none⟩

/-- Sample manager/entry for the round-trip witness. -/
def c4mgr : Manager := ⟨some "p", some (derive_key "p"), [], []⟩

def c4entry : DiaryEntry := ⟨"e1", "A", "c", 4, ["t"], [], [], 10, 10⟩

/-! ### Helper lemmas -/

theorem lookupKey_upsertKey_self (k : String) (v : α)
    (l : List (String × α)) : lookupKey k (upsertKey k v l) = some v := by
  induction l with
  | nil => simp [upsertKey, lookupKey]
  | cons p rest ih =>
    rcases p with ⟨k1, v1⟩
    by_cases h : k1 = k <;> simp [upsertKey, lookupKey, h, ih]

theorem lookupKey_upsertKey_ne (k k1 : String) (h : k1 ≠ k) (v : α)
    (l : List (String × α)) :
    lookupKey k (upsertKey k1 v l) = lookupKey k l := by
  induction l with
  | nil => simp [upsertKey, lookupKey, h]
  | cons p rest ih =>
    rcases p with ⟨k2, v2⟩
    by_cases h2 : k2 = k1
    · subst h2
      simp [upsertKey, lookupKey, h]
    · simp [upsertKey, lookupKey, h2, ih]

theorem lookupKey_of_mem_nodup (k : String) (v : α)
    (l : List (String × α)) (hmem : (k, v) ∈ l)
    (hnd : (l.map Prod.fst).Nodup) : lookupKey k l = some v := by
  induction l with
  | nil => cases hmem
  | cons p rest ih =>
    rcases p with ⟨k1, v1⟩
    rcases List.mem_cons.mp hmem with h | h
    · cases h
      simp [lookupKey]
    · have hne : k1 ≠ k := by
        intro hk
        subst hk
        have : k1 ∈ rest.map Prod.fst :=
          List.mem_map.mpr ⟨(k1, v), h, rfl⟩
        exact (List.nodup_cons.mp hnd).1 this
      have hnd2 : (rest.map Prod.fst).Nodup := (List.nodup_cons.mp hnd).2
      simp [lookupKey, hne, ih h hnd2]

/-- `from_dict` inverts `to_dict` for every entry, with any fresh id and
clock reading. -/
theorem from_dict_to_dict (e : DiaryEntry) (fid : String) (now : Nat) :
    DiaryEntry.from_dict e.to_dict fid now = some e := rfl

/-- Decoding the empty dict `{}` yields the all-defaults entry carrying
the fresh id and the current clock reading. -/
theorem from_dict_empty (fid : String) (now : Nat) :
    DiaryEntry.from_dict emptyDict fid now
      = some ⟨fid, "", "", 3, [], [], [], now, now⟩ := rfl

theorem decide_lt_eq_not_le (x y : Nat) :
    decide (x < y) = !decide (y ≤ x) := by
  rcases Nat.lt_or_ge x y with h | h
  · simp [h, Nat.not_le.mpr h]
  · simp [Nat.not_lt.mpr h, h]

/-- The source's skip condition is the pointwise negation of the spec's
conjunctive match predicate. -/
theorem searchSkip_eq_not_claimMatches (q : Option String)
    (t : Option (List String)) (df dt : Option Nat) (mo : Option Int)
    (e : DiaryEntry) :
    searchSkip q t df dt mo e = !claimMatches q t df dt mo e := by
  unfold searchSkip claimMatches optStrTruthy optListTruthy
  cases q <;> cases t <;> cases df <;> cases dt <;> cases mo <;>
    simp [Bool.not_and, Bool.not_or, decide_lt_eq_not_le]

/-- The search loop computes the filter by the spec's predicate. -/
theorem searchLoop_eq_filter (q : Option String)
    (t : Option (List String)) (df dt : Option Nat) (mo : Option Int)
    (l : List DiaryEntry) :
    searchLoop q t df dt mo l = l.filter (claimMatches q t df dt mo) := by
  induction l with
  | nil => rfl
  | cons e rest ih =>
    by_cases h : claimMatches q t df dt mo e
    · simp [searchLoop, searchSkip_eq_not_claimMatches, h, List.filter, ih]
    · simp [searchLoop, searchSkip_eq_not_claimMatches, h, List.filter, ih]

theorem insertByCreatedDesc_eq_orderedInsert (e : DiaryEntry)
    (l : List DiaryEntry) :
    insertByCreatedDesc e l = List.orderedInsert byCreatedDesc e l := by
  induction l with
  | nil => rfl
  | cons x xs ih =>
    by_cases h : e.created_at < x.created_at
    · simp [insertByCreatedDesc, List.orderedInsert, h, byCreatedDesc,
        Nat.not_le.mpr h, ih]
    · simp [insertByCreatedDesc, List.orderedInsert, h, byCreatedDesc,
        Nat.not_lt.mp h, ih]

theorem sortByCreatedDesc_eq_insertionSort (l : List DiaryEntry) :
    sortByCreatedDesc l = List.insertionSort byCreatedDesc l := by
  induction l with
  | nil => rfl
  | cons x xs ih =>
    simp [sortByCreatedDesc, List.insertionSort,
      insertByCreatedDesc_eq_orderedInsert, ← ih]

/-- The sort of `get_all_entries` really sorts: descending
`created_at`. -/
theorem sortByCreatedDesc_pairwise (l : List DiaryEntry) :
    (sortByCreatedDesc l).Pairwise byCreatedDesc := by
  rw [sortByCreatedDesc_eq_insertionSort]
  exact List.sorted_insertionSort byCreatedDesc l

/-- The sort of `get_all_entries` keeps exactly the input entries. -/
theorem sortByCreatedDesc_perm (l : List DiaryEntry) :
    List.Perm (sortByCreatedDesc l) l := by
  rw [sortByCreatedDesc_eq_insertionSort]
  exact List.perm_insertionSort byCreatedDesc l

/-- In plaintext mode, starting from a cache that knows none of the
table's keys, the bulk-read loop collects exactly the structurally
decodable records, in table order. -/
theorem gather_plain (ks : List (String × StoredVal)) (m : Manager)
    (base i now : Nat)
    (hpw : pwTruthy m.password = false)
    (hdb : ∀ k v, (k, v) ∈ ks → lookupKey k m.db = some v)
    (hcache : ∀ k v, (k, v) ∈ ks → lookupKey k m.entries_cache = none)
    (hnd : (ks.map Prod.fst).Nodup) :
    (gather m ks base i now).1 = decodableList ks base i now := by
  induction ks generalizing m i with
  | nil => rfl
  | cons kv rest ih =>
    rcases kv with ⟨k, v⟩
    have hdbk : lookupKey k m.db = some v := hdb k v (by simp)
    have hck : lookupKey k m.entries_cache = none := hcache k v (by simp)
    have hkfresh : ∀ k1 v1, (k1, v1) ∈ rest → k1 ≠ k := by
      intro k1 v1 hmem heq
      subst heq
      exact (List.nodup_cons.mp hnd).1
        (List.mem_map.mpr ⟨(k1, v1), hmem, rfl⟩)
    have hnd2 : (rest.map Prod.fst).Nodup := (List.nodup_cons.mp hnd).2
    have hdb2 : ∀ k1 v1, (k1, v1) ∈ rest → lookupKey k1 m.db = some v1 :=
      fun k1 v1 hmem => hdb k1 v1 (List.mem_cons_of_mem _ hmem)
    cases v with
    | plain d =>
      cases hfd : DiaryEntry.from_dict d (freshName base (i + 1)) now with
      | some e =>
        have hget : get_entry m k (freshName base (i + 1)) now false
            = (some e, { m with entries_cache := upsertKey k e m.entries_cache }) := by
          simp [get_entry, hck, hdbk, hpw, hfd]
        have ihr := ih { m with entries_cache := upsertKey k e m.entries_cache }
          (i + 1) hpw hdb2
          (fun k1 v1 hmem => by
            rw [lookupKey_upsertKey_ne k1 k (hkfresh k1 v1 hmem).symm]
            exact hcache k1 v1 (List.mem_cons_of_mem _ hmem))
          hnd2
        simp [gather, hget, decodableList, plainDecode, hfd, ihr]
      | none =>
        have hget : get_entry m k (freshName base (i + 1)) now false
            = (none, m) := by
          simp [get_entry, hck, hdbk, hpw, hfd]
        have ihr := ih m (i + 1) hpw hdb2
          (fun k1 v1 hmem => hcache k1 v1 (List.mem_cons_of_mem _ hmem)) hnd2
        simp [gather, hget, decodableList, plainDecode, hfd, ihr]
    | plainJunk ok =>
      have hget : get_entry m k (freshName base (i + 1)) now false
          = (none, m) := by
        simp [get_entry, hck, hdbk, hpw]
      have ihr := ih m (i + 1) hpw hdb2
        (fun k1 v1 hmem => hcache k1 v1 (List.mem_cons_of_mem _ hmem)) hnd2
      simp [gather, hget, decodableList, plainDecode, ihr]
    | b64plain d =>
      have hget : get_entry m k (freshName base (i + 1)) now false
          = (none, m) := by
        simp [get_entry, hck, hdbk, hpw]
      have ihr := ih m (i + 1) hpw hdb2
        (fun k1 v1 hmem => hcache k1 v1 (List.mem_cons_of_mem _ hmem)) hnd2
      simp [gather, hget, decodableList, plainDecode, ihr]
    | enc key iv d =>
      have hget : get_entry m k (freshName base (i + 1)) now false
          = (none, m) := by
        simp [get_entry, hck, hdbk, hpw]
      have ihr := ih m (i + 1) hpw hdb2
        (fun k1 v1 hmem => hcache k1 v1 (List.mem_cons_of_mem _ hmem)) hnd2
      simp [gather, hget, decodableList, plainDecode, ihr]
    | encJunk =>
      have hget : get_entry m k (freshName base (i + 1)) now false
          = (none, m) := by
        simp [get_entry, hck, hdbk, hpw]
      have ihr := ih m (i + 1) hpw hdb2
        (fun k1 v1 hmem => hcache k1 v1 (List.mem_cons_of_mem _ hmem)) hnd2
      simp [gather, hget, decodableList, plainDecode, ihr]

theorem bumpCount_keys (v : Int) (st : List (Int × Nat)) :
    (bumpCount v st).map Prod.fst = st.map Prod.fst := by
  induction st with
  | nil => rfl
  | cons p rest ih =>
    rcases p with ⟨k, c⟩
    by_cases h : k = v <;> simp [bumpCount, h, ih]

theorem countMoods_keys (l : List DiaryEntry) (st : List (Int × Nat)) :
    (countMoods l st).map Prod.fst = st.map Prod.fst := by
  induction l generalizing st with
  | nil => rfl
  | cons e rest ih =>
    by_cases h : hasCountKey e.mood st <;>
      simp [countMoods, h, ih, bumpCount_keys]

theorem hasCountKey_congr (v : Int) (st st' : List (Int × Nat))
    (h : st.map Prod.fst = st'.map Prod.fst) :
    hasCountKey v st = hasCountKey v st' := by
  induction st generalizing st' with
  | nil =>
    cases st' with
    | nil => rfl
    | cons p r => simp at h
  | cons p rest ih =>
    cases st' with
    | nil => simp at h
    | cons p' rest' =>
      simp only [List.map_cons, List.cons.injEq] at h
      simp [hasCountKey, h.1, ih rest' h.2]

theorem bumpCount_sum (v : Int) (st : List (Int × Nat))
    (h : hasCountKey v st = true) :
    ((bumpCount v st).map Prod.snd).sum = ((st.map Prod.snd).sum) + 1 := by
  induction st with
  | nil => simp [hasCountKey] at h
  | cons p rest ih =>
    rcases p with ⟨k, c⟩
    by_cases hk : k = v
    · simp [bumpCount, hk]
      omega
    · have h2 : hasCountKey v rest = true := by
        simpa [hasCountKey, hk] using h
      simp [bumpCount, hk, ih h2]
      omega

theorem countMoods_sum (l : List DiaryEntry) (st : List (Int × Nat)) :
    ((countMoods l st).map Prod.snd).sum
      = (st.map Prod.snd).sum
        + (l.filter (fun e => hasCountKey e.mood st)).length := by
  induction l generalizing st with
  | nil => simp [countMoods]
  | cons e rest ih =>
    by_cases h : hasCountKey e.mood st
    · have hfil : rest.filter (fun x => hasCountKey x.mood (bumpCount e.mood st))
          = rest.filter (fun x => hasCountKey x.mood st) :=
        List.filter_congr fun x _ =>
          hasCountKey_congr x.mood _ _ (bumpCount_keys e.mood st)
      have := ih (bumpCount e.mood st)
      simp only [countMoods, h, if_pos, List.filter, h] at this ⊢
      rw [this, hfil, bumpCount_sum e.mood st h]
      simp [List.filter]
      omega
    · have := ih st
      simp only [countMoods, h, if_neg, List.filter] at this ⊢
      simp [h, this, List.filter]

theorem hasCountKey_init (v : Int) :
    hasCountKey v [(1, 0), (2, 0), (3, 0), (4, 0), (5, 0)]
      = decide (1 ≤ v ∧ v ≤ 5) := by
  by_cases h : 1 ≤ v ∧ v ≤ 5
  · have hv : v = 1 ∨ v = 2 ∨ v = 3 ∨ v = 4 ∨ v = 5 := by omega
    rcases hv with h1 | h1 | h1 | h1 | h1 <;> subst h1 <;> decide
  · have h1 : ¬(1 : Int) = v := by omega
    have h2 : ¬(2 : Int) = v := by omega
    have h3 : ¬(3 : Int) = v := by omega
    have h4 : ¬(4 : Int) = v := by omega
    have h5 : ¬(5 : Int) = v := by omega
    simp [hasCountKey, h, h1, h2, h3, h4, h5]

/-- Every successful `from_dict` result carries exactly the dict's
fields with their defaults; in particular the stored mood is passed
through unclamped and a missing id keeps the fresh one. -/
theorem from_dict_some_fields (d : EntryDict) (fid : String) (now : Nat)
    (e : DiaryEntry) (h : DiaryEntry.from_dict d fid now = some e) :
    e.id = d.id.getD fid ∧ e.title = d.title.getD "" ∧
    e.content = d.content.getD "" ∧ e.mood = d.mood.getD 3 ∧
    e.tags = d.tags.getD [] ∧ e.location = d.location.getD [] ∧
    e.media = d.media.getD [] := by
  simp only [DiaryEntry.from_dict, DiaryEntry.init] at h
  cases hca : d.created_at with
  | none =>
    cases hua : d.updated_at with
    | none =>
      simp [hca, hua] at h
      subst h
      simp
    | some ts =>
      cases hts : fromisoformat ts with
      | none => simp [hca, hua, hts] at h
      | some t =>
        simp [hca, hua, hts] at h
        subst h
        simp
  | some ts =>
    cases hts : fromisoformat ts with
    | none => simp [hca, hts] at h
    | some t =>
      cases hua : d.updated_at with
      | none =>
        simp [hca, hts, hua] at h
        subst h
        simp
      | some ts2 =>
        cases hts2 : fromisoformat ts2 with
        | none => simp [hca, hts, hua, hts2] at h
        | some t2 =>
          simp [hca, hts, hua, hts2] at h
          subst h
          simp

/-- `from_dict` succeeds whenever the timestamp fields, when present,
are well-formed. -/
theorem from_dict_isSome (d : EntryDict) (fid : String) (now : Nat)
    (hc : ∀ ts, d.created_at = some ts → fromisoformat ts ≠ none)
    (hu : ∀ ts, d.updated_at = some ts → fromisoformat ts ≠ none) :
    (DiaryEntry.from_dict d fid now).isSome = true := by
  simp only [DiaryEntry.from_dict, DiaryEntry.init]
  cases hca : d.created_at with
  | none =>
    cases hua : d.updated_at with
    | none => simp
    | some ts =>
      cases hts : fromisoformat ts with
      | none => exact absurd hts (hu ts hua)
      | some t => simp [hts]
  | some ts =>
    cases hts : fromisoformat ts with
    | none => exact absurd hts (hc ts hca)
    | some t =>
      simp only [hts]
      cases hua : d.updated_at with
      | none => simp
      | some ts2 =>
        cases hts2 : fromisoformat ts2 with
        | none => exact absurd hts2 (hu ts2 hua)
        | some t2 => simp [hts2]

/-! ### The claims -/

/-- Claim C1 (code bug): password rotation is not all-or-nothing.  On a
two-entry store encrypted under `"old"`, injecting an I/O failure into
the re-save of the second entry still makes `change_password` return
`True`; the store is left with one record under the new key and one
under the old key, and reopening the store under the original password
can no longer decode the re-encrypted record — `get_entry` yields a
blank default entry instead of the stored fields.  The rollback in the
source's `except` handler is unreachable for per-entry failures because
`save_entry` catches its own exceptions and returns `None`. -/
theorem c1_rotation_not_atomic :
    rotResult.1 = true ∧
    lookupKey "e2" rotResult.2.db
      = some (.enc (derive_key "new") 100
          ({ rotEntryB with updated_at := 30 }).to_dict) ∧
    lookupKey "e1" rotResult.2.db
      = some (.enc rotKeyOld 0 rotEntryA.to_dict) ∧
    (get_entry rotReopenedOld "e2" "f" 99 false).1
      = some ⟨"f", "", "", 3, [], [], [], 99, 99⟩ ∧
    (get_entry rotReopenedOld "e2" "f" 99 false).1
      ≠ some { rotEntryB with updated_at := 30 } := by
  refine ⟨rfl, rfl, rfl, rfl, by decide⟩

/-- Claim C2 (counterexample): decrypting a record under a wrong key
does not make `get_entry` return absent — the decrypt failure is caught,
`{}` comes back from `_decrypt_data`, and `from_dict` turns it into a
blank default entry with a fresh id, which the caller cannot tell apart
from a genuine empty entry. -/
theorem c2_wrong_key_not_absent :
    (get_entry c2mgr "x" "fid" 42 false).1
      = some ⟨"fid", "", "", 3, [], [], [], 42, 42⟩ ∧
    (get_entry c2mgr "x" "fid" 42 false).1 ≠ none ∧
    ((get_entry c2mgr "x" "fid" 42 false).1).map DiaryEntry.title
      ≠ some rotEntryA.title := by
  refine ⟨rfl, by decide, by decide⟩

/-- Claim C2 (amended): decrypting with the key a record was encrypted
under recovers its fields exactly, and decrypting with any different key
yields the empty record, so `get_entry` returns a default-valued entry
(fresh id, empty title/content, mood 3, current timestamps) — never a
falsely successful decode of the stored fields, but also never
absent. -/
theorem c2_wrong_key_blank_default (d : EntryDict) (k k2 p : String)
    (iv : Nat) (idv fid : String) (now : Nat)
    (hk : k ≠ k2) (hp : p ≠ "") :
    decrypt_data (some k) (Bytes.ivCt k iv d) = d ∧
    decrypt_data (some k2) (Bytes.ivCt k iv d) = emptyDict ∧
    (get_entry ⟨some p, some k2, [], [(idv, StoredVal.enc k iv d)]⟩
        idv fid now false).1
      = some ⟨fid, "", "", 3, [], [], [], now, now⟩ := by
  have hpb : (p == "") = false := by simp [hp]
  refine ⟨by simp [decrypt_data], by simp [decrypt_data, hk], ?_⟩
  simp [get_entry, lookupKey, pwTruthy, hpb, b64decode, decrypt_data, hk,
    from_dict_empty]

theorem c2_wrong_key_blank_default_witness :
    decrypt_data (some (derive_key "a"))
        (Bytes.ivCt (derive_key "a") 5 c2dict) = c2dict ∧
    decrypt_data (some (derive_key "b"))
        (Bytes.ivCt (derive_key "a") 5 c2dict) = emptyDict ∧
    (get_entry ⟨some "b", some (derive_key "b"), [],
        [("x", StoredVal.enc (derive_key "a") 5 c2dict)]⟩
        "x" "fid" 42 false).1
      = some ⟨"fid", "", "", 3, [], [], [], 42, 42⟩ :=
  c2_wrong_key_blank_default c2dict (derive_key "a") (derive_key "b") "b"
    5 "x" "fid" 42 (by decide) (by decide)

/-- Claim C3 (counterexample): an entry stored with mood 7 is read back
from the store with mood 7, which is outside the five levels — no
defaulting or clamping happens on an out-of-range stored value. -/
theorem c3_mood_seven_read_back :
    ((get_entry moodSevenMgr "m7" "f" 0 false).1).map DiaryEntry.mood
      = some 7 ∧
    ¬(1 ≤ (7 : Int) ∧ (7 : Int) ≤ 5) := by
  refine ⟨rfl, by decide⟩

/-- Claim C3 (amended): `from_dict` substitutes the default mood 3 only
when the mood key is absent and otherwise passes the stored value
through unchanged; the constructor stores the given mood without
clamping; and `get_entry` on a plaintext store returns exactly the
structural decode, so an out-of-range stored mood survives the read. -/
theorem c3_mood_default_only_when_missing (d : EntryDict) (fid : String)
    (now : Nat) (e : DiaryEntry)
    (h : DiaryEntry.from_dict d fid now = some e)
    (t c : String) (mo : Int) (tg : Option (List String))
    (loc : Option (List (String × String))) (md : Option (List MediaItem))
    (ca ua : Option Nat) (fid2 : String) (now2 : Nat) (idv : String) :
    e.mood = d.mood.getD 3 ∧
    (DiaryEntry.init t c mo tg loc md ca ua fid2 now2).mood = mo ∧
    (get_entry ⟨none, none, [], [(idv, StoredVal.plain d)]⟩
        idv fid now false).1
      = DiaryEntry.from_dict d fid now := by
  refine ⟨(from_dict_some_fields d fid now e h).2.2.2.1, rfl, ?_⟩
  cases hfd : DiaryEntry.from_dict d fid now with
  | none => simp [get_entry, lookupKey, pwTruthy, hfd]
  | some e2 => simp [get_entry, lookupKey, pwTruthy, hfd]

theorem c3_mood_default_only_when_missing_witness :
    (7 : Int) = (moodSevenEntry.to_dict).mood.getD 3 ∧
    (DiaryEntry.init "" "" 7 none none none none none "f" 0).mood = 7 :=
  ⟨((c3_mood_default_only_when_missing moodSevenEntry.to_dict "f" 0
      moodSevenEntry rfl "" "" 7 none none none none none "f" 0 "m7").1).symm.trans rfl,
    (c3_mood_default_only_when_missing moodSevenEntry.to_dict "f" 0
      moodSevenEntry rfl "" "" 7 none none none none none "f" 0 "m7").2.1⟩

/-- Claim C4 (confirmed): saving an entry and fetching it back by id —
through the cache, and equally through the persistent table with the
cache cleared — returns the saved field values (title, content, mood,
tags, location, media), with `updated_at` refreshed to the save time, so
`created_at ≤ updated_at` holds whenever the clock has not run
backwards; this is independent of whether encryption is enabled. -/
theorem c4_save_get_round_trip (m : Manager) (e : DiaryEntry)
    (now iv : Nat) (fid fid2 : String) (now2 : Nat)
    (hmono : e.created_at ≤ now) :
    (save_entry m e now iv false).1 = some e.id ∧
    (get_entry (save_entry m e now iv false).2.2 e.id fid now2 false).1
      = some { e with updated_at := now } ∧
    (get_entry
      ⟨(save_entry m e now iv false).2.2.password,
        (save_entry m e now iv false).2.2.key, [],
        (save_entry m e now iv false).2.2.db⟩ e.id fid2 now2 false).1
      = some { e with updated_at := now } ∧
    ({ e with updated_at := now }).title = e.title ∧
    ({ e with updated_at := now }).content = e.content ∧
    ({ e with updated_at := now }).mood = e.mood ∧
    ({ e with updated_at := now }).tags = e.tags ∧
    ({ e with updated_at := now }).location = e.location ∧
    ({ e with updated_at := now }).media = e.media ∧
    ({ e with updated_at := now }).created_at
      ≤ ({ e with updated_at := now }).updated_at := by
  refine ⟨rfl, ?_, ?_, rfl, rfl, rfl, rfl, rfl, rfl, hmono⟩
  · simp [save_entry, get_entry, lookupKey_upsertKey_self]
  · by_cases hpw : pwTruthy m.password
    · cases hk : m.key with
      | none =>
        simp [save_entry, get_entry, lookupKey, lookupKey_upsertKey_self,
          hpw, hk, b64encode, encrypt_data, b64decode, decrypt_data,
          from_dict_to_dict]
      | some k =>
        simp [save_entry, get_entry, lookupKey, lookupKey_upsertKey_self,
          hpw, hk, b64encode, encrypt_data, b64decode, decrypt_data,
          from_dict_to_dict]
    · simp [save_entry, get_entry, lookupKey, lookupKey_upsertKey_self,
        hpw, from_dict_to_dict]

theorem c4_save_get_round_trip_witness :
    (get_entry
      ⟨(save_entry c4mgr c4entry 30 7 false).2.2.password,
        (save_entry c4mgr c4entry 30 7 false).2.2.key, [],
        (save_entry c4mgr c4entry 30 7 false).2.2.db⟩
        c4entry.id "g" 99 false).1
      = some { c4entry with updated_at := 30 } :=
  (c4_save_get_round_trip c4mgr c4entry 30 7 "f" "g" 99 (by decide)).2.2.1

/-- Claim C5 (counterexample): an injected I/O failure does not
propagate to the caller — `save_entry` returns `None`, `get_entry`
returns `None`, and a failing `delete_entry` returns `False`, the same
value it returns for a missing id, so the caller cannot tell an I/O
error from a normal absent result. -/
theorem c5_io_failure_swallowed :
    (save_entry c5mgr c5entry 5 0 true).1 = none ∧
    (get_entry c5mgr "e1" "f" 0 true).1 = none ∧
    delete_entry c5mgr "e1" true = (false, c5mgr) ∧
    delete_entry c5mgr "missing" false = (false, c5mgr) := by
  refine ⟨rfl, rfl, rfl, rfl⟩

/-- Claim C5 (amended): every I/O failure during save, get or delete is
caught inside the manager and converted into the operation's normal
failure value — `None` from save, `None` from a cache-missing get,
`False` from delete — leaving the state unchanged and without any
retry; no exception reaches the caller. -/
theorem c5_io_failure_to_return_values (m : Manager) (e : DiaryEntry)
    (now iv : Nat) (idv fid : String) (now2 : Nat) :
    save_entry m e now iv true = (none, { e with updated_at := now }, m) ∧
    (lookupKey idv m.entries_cache = none →
      get_entry m idv fid now2 true = (none, m)) ∧
    delete_entry m idv true = (false, m) := by
  refine ⟨rfl, ?_, rfl⟩
  intro h
  simp [get_entry, h]

theorem c5_io_failure_to_return_values_witness :
    get_entry c5mgr "e1" "f" 0 true = (none, c5mgr) :=
  (c5_io_failure_to_return_values c5mgr c5entry 5 0 "e1" "f" 0).2.1 rfl

/-- Claim C6 (counterexample): with encryption enabled, a record that
fails to decrypt is not omitted from `get_all_entries` — it shows up as
a blank default entry, so the result is not the list of decodable
entries. -/
theorem c6_unreadable_included_when_encrypted :
    (get_all_entries junkMgr 0 9).1
      = [⟨freshName 0 1, "", "", 3, [], [], [], 9, 9⟩] ∧
    (get_all_entries junkMgr 0 9).1 ≠ [] := by
  refine ⟨rfl, by decide⟩

/-- Claim C6 (amended): without encryption, `get_all_entries` on a fresh
manager returns exactly the structurally decodable records — sorted by
`created_at` descending, a permutation of the decodable list, with
undecodable records silently omitted; with encryption enabled an
undecryptable record is not omitted but contributes a blank default
entry. -/
theorem c6_list_all_plain_exact (m : Manager) (base now : Nat)
    (hpw : pwTruthy m.password = false)
    (hcache : m.entries_cache = [])
    (hnd : (m.db.map Prod.fst).Nodup) :
    (get_all_entries m base now).1
      = sortByCreatedDesc (decodableList m.db base 0 now) ∧
    (get_all_entries m base now).1.Pairwise byCreatedDesc ∧
    List.Perm (get_all_entries m base now).1 (decodableList m.db base 0 now) ∧
    (∀ (p k idv : String) (b n : Nat), p ≠ "" →
      (get_all_entries ⟨some p, some k, [], [(idv, StoredVal.encJunk)]⟩ b n).1
        = [⟨freshName b 1, "", "", 3, [], [], [], n, n⟩]) := by
  have hg : (gather m m.db base 0 now).1 = decodableList m.db base 0 now :=
    gather_plain m.db m base 0 now hpw
      (fun k v hmem => lookupKey_of_mem_nodup k v m.db hmem hnd)
      (fun k v _ => by simp [hcache, lookupKey])
      hnd
  have h1 : (get_all_entries m base now).1
      = sortByCreatedDesc (decodableList m.db base 0 now) := by
    simp [get_all_entries, hg]
  refine ⟨h1, ?_, ?_, ?_⟩
  · rw [h1]
    exact sortByCreatedDesc_pairwise _
  · rw [h1]
    exact sortByCreatedDesc_perm _
  · intro p k idv b n hp
    have hpb : (p == "") = false := by simp [hp]
    simp [get_all_entries, gather, get_entry, lookupKey, pwTruthy, hpb,
      b64decode, decrypt_data, from_dict_empty, sortByCreatedDesc,
      insertByCreatedDesc]

theorem c6_list_all_plain_exact_witness :
    (get_all_entries plainMgr 0 9).1
      = sortByCreatedDesc (decodableList plainMgr.db 0 0 9) ∧
    (get_all_entries junkMgr 2 7).1
      = [⟨freshName 2 1, "", "", 3, [], [], [], 7, 7⟩] :=
  ⟨(c6_list_all_plain_exact plainMgr 0 9 (by decide) rfl (by decide)).1,
    (c6_list_all_plain_exact plainMgr 0 9 (by decide) rfl (by decide)).2.2.2
      "p" (derive_key "p") "x" 2 7 (by decide)⟩

/-- Claim C7 (confirmed): `search_entries` returns exactly the entries
of `get_all_entries` (same manager state, same order, newest first) that
satisfy the conjunction of the supplied filters — case-insensitive
substring on title-or-content, at least one requested tag present,
inclusive `created_at` range, exact mood; an absent filter imposes no
constraint, searching with no filters returns the full listing
unchanged, and searching for a single tag returns exactly the entries
whose tag list contains it. -/
theorem c7_search_refines_filter (m : Manager) (base now : Nat)
    (query : Option String) (tags : Option (List String))
    (df dt : Option Nat) (mood : Option Int) :
    (search_entries m base now query tags df dt mood).1
      = ((get_all_entries m base now).1).filter
          (claimMatches query tags df dt mood) ∧
    (search_entries m base now none none none none none).1
      = (get_all_entries m base now).1 ∧
    (∀ x : String, (search_entries m base now none (some [x]) none none none).1
      = ((get_all_entries m base now).1).filter
          (fun e => e.tags.contains x)) := by
  refine ⟨?_, ?_, ?_⟩
  · simp [search_entries, searchLoop_eq_filter]
  · simp [search_entries, searchLoop_eq_filter, claimMatches]
  · intro x
    simp only [search_entries, searchLoop_eq_filter]
    refine List.filter_congr ?_
    intro e _
    simp [claimMatches]

/-- Claim C8 (counterexample): the histogram's values do not sum to the
number of entries considered — an entry whose stored mood is 7 is
date-filtered in but never counted, leaving the sum at 0 while one entry
was considered. -/
theorem c8_sum_misses_out_of_range :
    (get_mood_stats moodSevenMgr 0 0 none none).1
      = [(1, 0), (2, 0), (3, 0), (4, 0), (5, 0)] ∧
    (consideredEntries moodSevenMgr 0 0 none none).length = 1 ∧
    (((get_mood_stats moodSevenMgr 0 0 none none).1).map Prod.snd).sum
      ≠ (consideredEntries moodSevenMgr 0 0 none none).length := by
  refine ⟨rfl, rfl, by decide⟩

/-- Claim C8 (amended): the histogram always carries exactly the five
keys 1..5 zero-filled, and its values sum to the number of considered
(date-filtered) entries whose mood lies within 1..5 — entries with an
out-of-range stored mood are considered but not counted. -/
theorem c8_mood_stats_keys_and_sum (m : Manager) (base now : Nat)
    (df dt : Option Nat) :
    ((get_mood_stats m base now df dt).1).map Prod.fst = [1, 2, 3, 4, 5] ∧
    (((get_mood_stats m base now df dt).1).map Prod.snd).sum
      = ((consideredEntries m base now df dt).filter
          (fun e => decide (1 ≤ e.mood ∧ e.mood ≤ 5))).length := by
  constructor
  · simp only [get_mood_stats]
    rw [countMoods_keys]
    rfl
  · simp only [get_mood_stats, consideredEntries]
    rw [countMoods_sum]
    have hfe : ∀ lst : List DiaryEntry,
        lst.filter (fun e => hasCountKey e.mood
            [(1, 0), (2, 0), (3, 0), (4, 0), (5, 0)])
          = lst.filter (fun e => decide (1 ≤ e.mood ∧ e.mood ≤ 5)) :=
      fun lst => List.filter_congr fun x _ => hasCountKey_init x.mood
    rw [hfe]
    simp

/-- Claim C9 (counterexample): `update` installs the caller's tag list
verbatim, so updating with `["x", "x"]` stores a duplicate tag — the
no-duplicates invariant is not preserved by every tag-setting
operation. -/
theorem c9_update_stores_duplicates :
    (tagEntry.update none none none (some ["x", "x"]) none none 5).tags
      = ["x", "x"] ∧
    ¬((tagEntry.update none none none (some ["x", "x"]) none none 5).tags.Nodup) := by
  refine ⟨rfl, by decide⟩

/-- Claim C9 (amended): `add_tag` rejects an already-present tag
(returning `False` and changing nothing), appends a new tag at the end
(preserving insertion order) and preserves the no-duplicates invariant;
but `update` and the constructor install the supplied list verbatim, so
the invariant holds only when the caller's list itself has no
duplicates. -/
theorem c9_add_tag_keeps_nodup (e : DiaryEntry) (tag : String)
    (l : List String) (t c : String) (mo : Int)
    (loc : Option (List (String × String))) (md : Option (List MediaItem))
    (ca ua : Option Nat) (fid : String) (now : Nat) :
    (e.tags.Nodup → ((e.add_tag tag now).2.tags.Nodup)) ∧
    (tag ∈ e.tags → e.add_tag tag now = (false, e)) ∧
    (tag ∉ e.tags → e.add_tag tag now
      = (true, { e with tags := e.tags ++ [tag], updated_at := now })) ∧
    (e.update none none none (some l) none none now).tags = l ∧
    (DiaryEntry.init t c mo (some l) loc md ca ua fid now).tags = l := by
  refine ⟨?_, ?_, ?_, rfl, rfl⟩
  · intro hnd
    by_cases hmem : tag ∈ e.tags
    · simp [DiaryEntry.add_tag, hmem, hnd]
    · simp [DiaryEntry.add_tag, hmem, hnd, List.nodup_append]
  · intro hmem
    simp [DiaryEntry.add_tag, hmem]
  · intro hmem
    simp [DiaryEntry.add_tag, hmem]

theorem c9_add_tag_keeps_nodup_witness :
    ((tagEntryNoTags.add_tag "x" 5).2.tags.Nodup) ∧
    (tagEntry.add_tag "t" 5 = (false, tagEntry)) ∧
    (tagEntryNoTags.add_tag "y" 5
      = (true, { tagEntryNoTags with tags := ["y"], updated_at := 5 })) :=
  ⟨(c9_add_tag_keeps_nodup tagEntryNoTags "x" [] "" "" 0 none none none
      none "" 5).1 (by decide),
    (c9_add_tag_keeps_nodup tagEntry "t" [] "" "" 0 none none none
      none "" 5).2.1 (by decide),
    (c9_add_tag_keeps_nodup tagEntryNoTags "y" [] "" "" 0 none none none
      none "" 5).2.2.1 (by decide)⟩

/-- Claim C10 (counterexample): `from_dict` is not total on every
dictionary — a present but malformed `created_at` string makes
`datetime.fromisoformat` raise, so the decode fails instead of
defaulting. -/
theorem c10_malformed_timestamp_fails :
    DiaryEntry.from_dict badTsDict "f" 0 = none := rfl

/-- Claim C10 (amended): `from_dict` succeeds on every dictionary whose
timestamp fields, when present, are well-formed — including the empty
dictionary, which decodes to the all-defaults entry (empty
title/content, mood 3, empty tags/location/media, current timestamps)
carrying the freshly generated identifier; a missing id always yields
the fresh identifier. -/
theorem c10_from_dict_total_on_wellformed (d : EntryDict) (fid : String)
    (now : Nat)
    (hc : ∀ ts, d.created_at = some ts → fromisoformat ts ≠ none)
    (hu : ∀ ts, d.updated_at = some ts → fromisoformat ts ≠ none) :
    (DiaryEntry.from_dict d fid now).isSome = true ∧
    DiaryEntry.from_dict emptyDict fid now
      = some ⟨fid, "", "", 3, [], [], [], now, now⟩ ∧
    (∀ e, d.id = none → DiaryEntry.from_dict d fid now = some e →
      e.id = fid) := by
  refine ⟨from_dict_isSome d fid now hc hu, rfl, ?_⟩
  intro e hid h
  have hfst := (from_dict_some_fields d fid now e h).1
  rw [hid] at hfst
  simpa using hfst

theorem c10_from_dict_total_on_wellformed_witness :
    (DiaryEntry.from_dict emptyDict "f" 0).isSome = true :=
  (c10_from_dict_total_on_wellformed emptyDict "f" 0
    (fun ts h => by simp [emptyDict] at h)
    (fun ts h => by simp [emptyDict] at h)).1

end Diario
